import Mathlib

/-!
A shallow embedding of the SageMaker churn notebook
(`sagemaker-churn-lab-archived.ipynb`) and proofs about it.

The notebook is a straight-line script that talks to two remote services
(object storage and the managed AutoML/hosting service).  We embed it as a
program in a small free-monad style type `Prog`: each remote call is a
`Prog.call` node carrying the request payload and a continuation consuming
the (opaque, service-owned) response; purely local observable actions
(writing the two CSV files, the fixed-interval sleep in the polling loop)
are `Prog.emit` nodes.  An interpreter `run` executes a program against a
response oracle `w : Nat → Response` (the `n`-th remote call receives
response `w n`) and yields the trace of events; `exec` is the same
interpreter against a fallible oracle, modelling a remote call that raises.

The pure parts of the notebook (the train/test split of cell 9, the CSV
rendering of cells 11 and 33, `split_s3_path` of cell 22, and the accuracy
computation of cell 33) are embedded as ordinary Lean functions.  The
notebook's `sm` and `session` names denote the SageMaker client and
session objects; their methods are the remote calls modelled here.
-/

namespace ChurnLab

/-- The remote API calls the notebook can issue, with their payloads.
The three delete calls appear in the notebook only inside a markdown
(non-executable) cell; they are included here so that "the script never
issues a delete" is a statement about a type that could express one. -/
inductive ApiCall where
  | listBuckets
  | s3Upload (file dest : String)
  | s3Download (bucket keyPre : String)
  | createAutoMLJob (jobName inputUri target outputUri : String)
      (maxCandidates : Nat) (roleArn : String)
  | describeAutoMLJob (jobName : String)
  | listCandidates (jobName : String)
  | createModel (modelName : String) (containers : List String) (roleArn : String)
  | createEndpointConfig (epcName instanceType : String) (instanceCount : Nat)
      (modelName variantName : String)
  | createEndpoint (epName epcName : String)
  | waitEndpointInService (epName : String)
  | invokeEndpoint (epName payload : String)
  | deleteEndpoint (epName : String)
  | deleteEndpointConfig (epcName : String)
  | deleteModel (modelName : String)
  deriving DecidableEq

/-- Local observable actions: the `sleep(30)` of the polling loop and the
`to_csv` file writes of cell 11. -/
inductive LocalEv where
  | sleep (seconds : Nat)
  | write (file content : String)
  deriving DecidableEq

/-- An event of an execution trace. -/
inductive Ev where
  | api (c : ApiCall)
  | loc (e : LocalEv)
  deriving DecidableEq

/-- A remote response, modelled as a record of the fields the notebook ever
reads (a Python `dict` read by key).  Every field is owned by the remote
service; the script only reads them. -/
structure Response where
  buckets : List String
  arn : String
  status : String
  secondaryStatus : String
  candidateNbk : String
  dataExploreNbk : String
  bestName : String
  bestContainers : List String
  body : String
  deriving DecidableEq

/-- Programs over the remote API: pure result, a remote call with a
continuation on the response, or a local observable event. -/
inductive Prog (α : Type) where
  | pure (a : α)
  | call (c : ApiCall) (k : Response → Prog α)
  | emit (e : LocalEv) (p : Prog α)

/-- Result of interpreting a program: the event trace, the next unused
remote-call index, and the return value. -/
structure RunOut (α : Type) where
  trace : List Ev
  next : Nat
  val : α
  deriving DecidableEq

/-- Prefix a run result with earlier events. -/
def RunOut.prepend {α : Type} (es : List Ev) (r : RunOut α) : RunOut α :=
  ⟨es ++ r.trace, r.next, r.val⟩

/-- Interpreter against an infallible response oracle: call `n` of the
program receives response `w n`. -/
def run {α : Type} : Prog α → (Nat → Response) → Nat → RunOut α
  | .pure a, _, n => ⟨[], n, a⟩
  | .call c f, w, n => RunOut.prepend [Ev.api c] (run (f (w n)) w (n + 1))
  | .emit e p, w, n => RunOut.prepend [Ev.loc e] (run p w n)

/-- Interpreter against a fallible oracle.  The notebook has no
`try`/`except`, so a failing remote call aborts the program: the failing
call is the last event of the trace and the error is returned unhandled. -/
def exec {α : Type} : Prog α → (Nat → Except String Response) → Nat →
    RunOut (Except String α)
  | .pure a, _, n => ⟨[], n, .ok a⟩
  | .call c f, w, n =>
    match w n with
    | .error e => ⟨[Ev.api c], n + 1, .error e⟩
    | .ok r => RunOut.prepend [Ev.api c] (exec (f r) w (n + 1))
  | .emit e p, w, n => RunOut.prepend [Ev.loc e] (exec p w n)

/-- `EvOK P p` says every event any execution of `p` could emit satisfies
`P`, whatever the remote responses are. -/
def EvOK {α : Type} (P : Ev → Prop) : Prog α → Prop
  | .pure _ => True
  | .call c f => P (Ev.api c) ∧ ∀ r, EvOK P (f r)
  | .emit e p => P (Ev.loc e) ∧ EvOK P p

/-- Number of remote calls recorded in a trace. -/
def countApi : List Ev → Nat
  | [] => 0
  | Ev.api _ :: t => countApi t + 1
  | Ev.loc _ :: t => countApi t

/-- The prefix of a trace up to and including its `n`-th remote call
(local events after the last included call are dropped). -/
def takeCalls : Nat → List Ev → List Ev
  | 0, _ => []
  | _ + 1, [] => []
  | n + 1, Ev.api c :: t => Ev.api c :: takeCalls n t
  | n + 1, Ev.loc e :: t => Ev.loc e :: takeCalls (n + 1) t

/-- Is this event one of the three teardown calls? -/
def isDeleteEv : Ev → Bool
  | Ev.api (ApiCall.deleteEndpoint _) => true
  | Ev.api (ApiCall.deleteEndpointConfig _) => true
  | Ev.api (ApiCall.deleteModel _) => true
  | _ => false

/-- Is this event the AutoML job submission? -/
def isCreateJobEv : Ev → Bool
  | Ev.api (ApiCall.createAutoMLJob _ _ _ _ _ _) => true
  | _ => false

/-- Is this event one of the three deployment creation calls
(`create_model`, `create_endpoint_config`, `create_endpoint`)? -/
def isDeployCreateEv : Ev → Bool
  | Ev.api (ApiCall.createModel _ _ _) => true
  | Ev.api (ApiCall.createEndpointConfig _ _ _ _ _) => true
  | Ev.api (ApiCall.createEndpoint _ _) => true
  | _ => false

/-- Is this event the readiness wait? -/
def isWaitEv : Ev → Bool
  | Ev.api (ApiCall.waitEndpointInService _) => true
  | _ => false

/-- Is this event an inference request? -/
def isInvokeEv : Ev → Bool
  | Ev.api (ApiCall.invokeEndpoint _ _) => true
  | _ => false

/-- Model names created along a trace. -/
def createdModels (tr : List Ev) : List String :=
  tr.filterMap fun e =>
    match e with
    | Ev.api (ApiCall.createModel n _ _) => some n
    | _ => none

/-- Model names deleted along a trace. -/
def deletedModels (tr : List Ev) : List String :=
  tr.filterMap fun e =>
    match e with
    | Ev.api (ApiCall.deleteModel n) => some n
    | _ => none

/-- Endpoint-config names created along a trace. -/
def createdConfigs (tr : List Ev) : List String :=
  tr.filterMap fun e =>
    match e with
    | Ev.api (ApiCall.createEndpointConfig n _ _ _ _) => some n
    | _ => none

/-- Endpoint-config names deleted along a trace. -/
def deletedConfigs (tr : List Ev) : List String :=
  tr.filterMap fun e =>
    match e with
    | Ev.api (ApiCall.deleteEndpointConfig n) => some n
    | _ => none

/-- Endpoint names created along a trace. -/
def createdEndpoints (tr : List Ev) : List String :=
  tr.filterMap fun e =>
    match e with
    | Ev.api (ApiCall.createEndpoint n _) => some n
    | _ => none

/-- Endpoint names deleted along a trace. -/
def deletedEndpoints (tr : List Ev) : List String :=
  tr.filterMap fun e =>
    match e with
    | Ev.api (ApiCall.deleteEndpoint n) => some n
    | _ => none

/-! The status polling loop (cell 19):

```python
describe_response = sm.describe_auto_ml_job(AutoMLJobName=auto_ml_job_name)
job_run_status = describe_response['AutoMLJobStatus']
while job_run_status not in ('Failed', 'Completed', 'Stopped'):
    describe_response = sm.describe_auto_ml_job(AutoMLJobName=auto_ml_job_name)
    job_run_status = describe_response['AutoMLJobStatus']
    sleep(30)
```

The loop is unbounded in the notebook; we embed it as a fuel-indexed family
`pollBody name cont fuel r` (`r` is the most recently observed response,
`cont` the rest of the script, receiving `some last` on normal exit and
`none` when the fuel ran out with the observed status still non-terminal).
Statements about the unbounded loop quantify over all fuels. -/

/-- The terminal statuses tested by the `while` guard, exactly the tuple
`('Failed', 'Completed', 'Stopped')` of cell 19. -/
def isTerminal (s : String) : Bool :=
  s == "Failed" || s == "Completed" || s == "Stopped"

/-- The polling `while` loop of cell 19, in continuation style. -/
def pollBody {α : Type} (name : String) (cont : Option Response → Prog α) :
    Nat → Response → Prog α
  | fuel, r =>
    if isTerminal r.status then cont (some r)
    else
      match fuel with
      | 0 => cont none
      | f + 1 =>
        .call (.describeAutoMLJob name) fun r2 =>
          .emit (.sleep 30) (pollBody name cont f r2)

/-- The initial `describe_auto_ml_job` of cell 19 followed by the loop. -/
def pollSegment (name : String) (fuel : Nat) : Prog (Option Response) :=
  .call (.describeAutoMLJob name) fun r0 => pollBody name .pure fuel r0

/-- The events of `m` executed loop bodies: each body issues one describe
call and then sleeps 30 seconds. -/
def pollTrace (name : String) : Nat → List Ev
  | 0 => []
  | m + 1 =>
      Ev.api (.describeAutoMLJob name) :: Ev.loc (.sleep 30) :: pollTrace name m

/-- Index (counted from the response `r` already in hand) of the first
terminal status among `r, w n, w (n+1), …`, searching at most `fuel` steps
past `r`; `none` if no terminal status appears in that window. -/
def firstTermFrom (w : Nat → Response) : Response → Nat → Nat → Option Nat
  | r, _, 0 => if isTerminal r.status then some 0 else none
  | r, n, f + 1 =>
    if isTerminal r.status then some 0
    else (firstTermFrom w (w n) (n + 1) f).map (· + 1)

/-- The response observed last when the loop stops after `m` further
describes past `r`. -/
def lastResp (r : Response) (w : Nat → Response) (n : Nat) : Nat → Response
  | 0 => r
  | m + 1 => w (n + m)

/-! Data preparation (cells 5–11).

```python
churn = pd.read_csv('./churn.txt')
train_data = churn.sample(frac=0.8,random_state=200)
test_data = churn.drop(train_data.index)
test_data_no_target = test_data.drop(columns=['Churn?'])
train_data.to_csv(train_file, index=False, header=True)
test_data_no_target.to_csv(test_file, index=False, header=False)
```

The loaded frame (`churn.txt`, fetched by `wget` in cell 5) is a parameter
of the embedding.  `pandas.DataFrame.sample` is an external library call;
it is modelled by its contract: a without-replacement draw of
`int(round(frac * n))` distinct row positions, driven by a deterministic
pseudo-random generator seeded with `random_state` when that argument is
given and by the ambient global generator state otherwise.  The concrete
generator below is a 64-bit linear congruential generator; the properties
proved (distinctness, size, partition, determinism) do not depend on the
particular generator constants. -/

/-- One step of the 64-bit LCG driving the modelled sampler. -/
def lcg (s : Nat) : Nat :=
  (6364136223846793005 * s + 1442695040888963407) % (2 ^ 64)

/-- `int(round(0.8 * n))`: the pandas sample size for `frac=0.8` (the
fractional part of `0.8 * n` is never exactly one half, so round-half-up
agrees with Python's rounding here). -/
def sampleSize (n : Nat) : Nat := (8 * n + 5) / 10

/-- Draw `k` elements without replacement from `pool`, advancing the LCG
state once per draw (a selection-sampling model of
`numpy.random.RandomState.choice(n, k, replace=False)`). -/
def drawIdx : Nat → List Nat → Nat → List Nat
  | 0, _, _ => []
  | _ + 1, [], _ => []
  | k + 1, x :: pool, st =>
    let st2 := lcg st
    let j := st2 % (x :: pool).length
    (x :: pool).getD j 0 :: drawIdx k ((x :: pool).eraseIdx j) st2

/-- Row positions selected by `sample(frac=0.8, random_state=rs)` on a
frame of `n` rows; `ambient` is the global generator state used when no
`random_state` is supplied. -/
def sampleIdx (n : Nat) (randomState : Option Nat) (ambient : Nat) : List Nat :=
  drawIdx (sampleSize n) (List.range n) (randomState.getD ambient)

/-- Cell 9: `train_data = churn.sample(frac=0.8,random_state=200)` and
`test_data = churn.drop(train_data.index)`.  A freshly read frame has the
positional range index, so dropping the sampled labels keeps exactly the
rows whose position was not sampled, in their original order. -/
def prepareSplit (rows : List (List String)) (ambient : Nat) :
    List (List String) × List (List String) :=
  let ti := sampleIdx rows.length (some 200) ambient
  (ti.map (fun i => rows.getD i []),
   ((List.range rows.length).filter (fun i => !ti.contains i)).map
     (fun i => rows.getD i []))

/-- The sampled (training) row positions of cell 9. -/
def trainIdx (n : Nat) : List Nat := sampleIdx n (some 200) 0

/-- The remaining (testing) row positions of cell 9. -/
def testIdx (n : Nat) : List Nat :=
  (List.range n).filter (fun i => !(trainIdx n).contains i)

/-- The training split of cell 9. -/
def trainRows (rows : List (List String)) : List (List String) :=
  (prepareSplit rows 0).1

/-- The testing split of cell 9. -/
def testRows (rows : List (List String)) : List (List String) :=
  (prepareSplit rows 0).2

/-- A loaded CSV frame: header (column names) and rows of fields. -/
structure Frame where
  header : List String
  rows : List (List String)
  deriving DecidableEq

/-- Position of the `'Churn?'` column in a header. -/
def churnCol : List String → Nat
  | [] => 0
  | h :: t => if h == "Churn?" then 0 else churnCol t + 1

/-- Drop the `'Churn?'` field from a row
(`drop(columns=['Churn?'])` / `drop('Churn?', axis=1)`). -/
def dropChurnRow (hdr r : List String) : List String :=
  r.eraseIdx (churnCol hdr)

/-- The `'Churn?'` field of a row (`test_data['Churn?']`). -/
def churnVal (hdr r : List String) : String :=
  r.getD (churnCol hdr) ""

/-- Join fields with commas. -/
def joinComma : List String → String
  | [] => ""
  | [x] => x
  | x :: y :: t => x ++ "," ++ joinComma (y :: t)

/-- `to_csv(..., index=False)`: one comma-separated line per row, each
terminated by a newline, optionally preceded by a header line. -/
def csvRender (hdr : List String) (rows : List (List String))
    (withHeader : Bool) : String :=
  String.join (((if withHeader then [hdr] else []) ++ rows).map
    (fun r => joinComma r ++ "\n"))

/-- Cell 11: `train_data.to_csv(train_file, index=False, header=True)`. -/
def trainFileContent (f : Frame) : String :=
  csvRender f.header (trainRows f.rows) true

/-- The testing rows with the target column removed
(`test_data_no_target` of cell 9; identical content to
`test_data_inference` of cell 33). -/
def testNoTarget (f : Frame) : List (List String) :=
  (testRows f.rows).map (dropChurnRow f.header)

/-- Cell 11: `test_data_no_target.to_csv(test_file, index=False,
header=False)`; also the inference payload of cell 33,
`test_data_inference.to_csv(sep=',', header=False, index=False)`. -/
def testFileContent (f : Frame) : String :=
  csvRender [] (testNoTarget f) false

/-- Ground-truth labels of the testing split
(`test_data.reset_index()['Churn?']`). -/
def truthVals (f : Frame) : List String :=
  (testRows f.rows).map (churnVal f.header)

/-! String utilities, `split_s3_path` (cell 22) and response parsing
(cell 33).  Strings are handled as character lists where we need to reason
about them. -/

/-- Is the first list a prefix of the second? -/
def isPre : List Char → List Char → Bool
  | [], _ => true
  | _ :: _, [] => false
  | a :: as, b :: bs => a == b && isPre as bs

/-- Does `pat` occur as a contiguous substring? -/
def hasSub (pat : List Char) : List Char → Bool
  | [] => pat.isEmpty
  | c :: rest => isPre pat (c :: rest) || hasSub pat rest

/-- Split at every occurrence of `sep` (Python `str.split(sep)` for a
one-character separator: always at least one piece, empty pieces kept). -/
def splitCh (sep : Char) : List Char → List (List Char)
  | [] => [[]]
  | c :: rest =>
    if c == sep then [] :: splitCh sep rest
    else
      match splitCh sep rest with
      | [] => [[c]]
      | p :: ps => (c :: p) :: ps

/-- Python `"/".join(parts)`. -/
def joinSlash : List (List Char) → List Char
  | [] => []
  | [p] => p
  | p :: q :: t => p ++ '/' :: joinSlash (q :: t)

/-- The characters of the literal `"s3://"`. -/
def s3Scheme : List Char := ['s', '3', ':', '/', '/']

/-- Python `s.replace("s3://", "")`: delete every non-overlapping
occurrence of `"s3://"`, scanning left to right. -/
def stripS3 : List Char → List Char
  | 's' :: '3' :: ':' :: '/' :: '/' :: rest => stripS3 rest
  | [] => []
  | c :: rest => c :: stripS3 rest

/-- Cell 22:

```python
def split_s3_path(s3_path):
    path_parts=s3_path.replace("s3://","").split("/")
    bucket=path_parts.pop(0)
    key="/".join(path_parts)
    return bucket, key
```
-/
def split_s3_path (s3_path : List Char) : List Char × List Char :=
  let path_parts := splitCh '/' (stripS3 s3_path)
  (path_parts.headD [], joinSlash path_parts.tail)

/-- `split_s3_path` on `String`s, as the script calls it. -/
def splitS3Str (s : String) : String × String :=
  let p := split_s3_path s.toList
  (String.mk p.1, String.mk p.2)

/-- Python `str.startswith`. -/
def strStarts (p s : String) : Bool := isPre p.toList s.toList

/-- Cell 1: the first bucket whose name starts with `'sagemaker-lab'`
(the notebook indexes with `[0]`; absence of such a bucket, which would
raise in Python, is modelled by the empty name). -/
def bucketOf (r : Response) : String :=
  ((r.buckets.filter (fun b => strStarts "sagemaker-lab" b)).headD "")

/-- The fixed S3 key namespace of cell 1. -/
def pfx : String := "sagemaker/DEMO-xgboost-churn"

/-- Cell 33 response handling: the CSV deserializer splits the returned
text into lines and each line into comma-separated fields;
`prediction_df[0]` reads the first field of each line. -/
def parsePreds (s : String) : List String :=
  ((splitCh '\n' s.toList).filter (fun l => !l.isEmpty)).map
    (fun l => String.mk ((splitCh ',' l).headD []))

/-- Cell 33: `(test_data.reset_index()['Churn?'] ==
prediction_df[0]).sum() / len(test_data_inference)`.  The two series are
compared position by position. -/
def accuracyOf (truth preds : List String) : ℚ :=
  (((truth.zip preds).countP (fun q => q.1 == q.2) : Nat) : ℚ) /
    ((truth.length : Nat) : ℚ)

/-- The specification's formulation of accuracy: the number of test rows
whose ground-truth label equals the predicted label, divided by the number
of test rows. -/
def specAccuracy (truth preds : List String) : ℚ :=
  ((((List.range truth.length).filter
      (fun i => truth.getD i "" == preds.getD i "")).length : Nat) : ℚ) /
    ((truth.length : Nat) : ℚ)

/-! The whole notebook as one program. -/

/-- The notebook, cells 1–33, as a `Prog`.

`f` is the frame loaded from `churn.txt` in cells 5–6; `ts1` and `ts2` are
the two `strftime` timestamp suffixes taken in cells 16 and 30; `role` is
the IAM role of cell 1; `fuel` bounds the polling loop (which the notebook
leaves unbounded — statements quantify over `fuel`).  Cell 33's two
branches (SageMaker SDK v1/v2) serialize the same payload and compute the
same accuracy expression; the embedding covers both. -/
def scriptProg (f : Frame) (ts1 ts2 role : String) (fuel : Nat) :
    Prog (Option ℚ) :=
  .call .listBuckets fun rb =>
  let bucket := bucketOf rb
  let jobName := "automl-churn-" ++ ts1
  .emit (.write "train_data.csv" (trainFileContent f)) <|
  .call (.s3Upload "train_data.csv" (pfx ++ "/train")) fun _ =>
  .emit (.write "test_data.csv" (testFileContent f)) <|
  .call (.s3Upload "test_data.csv" (pfx ++ "/test")) fun _ =>
  .call (.createAutoMLJob jobName ("s3://" ++ bucket ++ "/" ++ pfx ++ "/train")
      "Churn?" ("s3://" ++ bucket ++ "/" ++ pfx ++ "/output") 20 role) fun _ =>
  .call (.describeAutoMLJob jobName) fun r0 =>
  pollBody jobName
    (fun polled =>
      match polled with
      | none => .pure none
      | some lastR =>
        let sp1 := splitS3Str lastR.candidateNbk
        let sp2 := splitS3Str lastR.dataExploreNbk
        .call (.s3Download sp1.1 sp1.2) fun _ =>
        .call (.s3Download sp1.1 sp2.2) fun _ =>
        .call (.describeAutoMLJob jobName) fun rBest =>
        .call (.listCandidates jobName) fun _ =>
        let mn := rBest.bestName ++ ts2 ++ "-model"
        .call (.createModel mn rBest.bestContainers role) fun _ =>
        let epc := rBest.bestName ++ ts2 ++ "-epc"
        .call (.createEndpointConfig epc "ml.m5.2xlarge" 1 mn "main") fun _ =>
        let ep := rBest.bestName ++ ts2 ++ "-ep"
        .call (.createEndpoint ep epc) fun _ =>
        .call (.waitEndpointInService ep) fun _ =>
        .call (.invokeEndpoint ep (testFileContent f)) fun rp =>
        .pure (some (accuracyOf (truthVals f) (parsePreds rp.body))))
    fuel r0

/-- The full event trace of a notebook run in which the polling loop
observes its first terminal status after `m` loop bodies. -/
def fullTrace (f : Frame) (ts1 ts2 role : String) (w : Nat → Response)
    (m : Nat) : List Ev :=
  let bucket := bucketOf (w 0)
  let jobName := "automl-churn-" ++ ts1
  let lastR := w (4 + m)
  let rBest := w (7 + m)
  let mn := rBest.bestName ++ ts2 ++ "-model"
  let epc := rBest.bestName ++ ts2 ++ "-epc"
  let ep := rBest.bestName ++ ts2 ++ "-ep"
  [Ev.api .listBuckets,
   Ev.loc (.write "train_data.csv" (trainFileContent f)),
   Ev.api (.s3Upload "train_data.csv" (pfx ++ "/train")),
   Ev.loc (.write "test_data.csv" (testFileContent f)),
   Ev.api (.s3Upload "test_data.csv" (pfx ++ "/test")),
   Ev.api (.createAutoMLJob jobName ("s3://" ++ bucket ++ "/" ++ pfx ++ "/train")
     "Churn?" ("s3://" ++ bucket ++ "/" ++ pfx ++ "/output") 20 role),
   Ev.api (.describeAutoMLJob jobName)]
  ++ pollTrace jobName m
  ++ [Ev.api (.s3Download (splitS3Str lastR.candidateNbk).1
        (splitS3Str lastR.candidateNbk).2),
      Ev.api (.s3Download (splitS3Str lastR.candidateNbk).1
        (splitS3Str lastR.dataExploreNbk).2),
      Ev.api (.describeAutoMLJob jobName),
      Ev.api (.listCandidates jobName),
      Ev.api (.createModel mn rBest.bestContainers role),
      Ev.api (.createEndpointConfig epc "ml.m5.2xlarge" 1 mn "main"),
      Ev.api (.createEndpoint ep epc),
      Ev.api (.waitEndpointInService ep),
      Ev.api (.invokeEndpoint ep (testFileContent f))]

/-- The accuracy value computed by a completed run. -/
def finalAcc (f : Frame) (w : Nat → Response) (m : Nat) : ℚ :=
  accuracyOf (truthVals f) (parsePreds ((w (13 + m)).body))

/-! Concrete data for witnesses and counterexamples. -/

/-- A describe response with a non-terminal status. -/
def cRespGo : Response :=
  ⟨["sagemaker-lab-1"], "arn:received", "InProgress", "AnalyzingData",
   "s3://nb/a/c.ipynb", "s3://nb/a/d.ipynb", "cand", ["img1", "img2"],
   "True.\n"⟩

/-- A response with a terminal status. -/
def cRespDone : Response :=
  ⟨["sagemaker-lab-1"], "arn:received", "Completed", "MaxCandidatesReached",
   "s3://nb/a/c.ipynb", "s3://nb/a/d.ipynb", "cand", ["img1", "img2"],
   "True.\n"⟩

/-- Like `cRespDone` but the job-creation call returns a different ARN. -/
def cRespOther : Response :=
  ⟨["sagemaker-lab-1"], "arn:other", "Completed", "MaxCandidatesReached",
   "s3://nb/a/c.ipynb", "s3://nb/a/d.ipynb", "cand", ["img1", "img2"],
   "True.\n"⟩

/-- A concrete oracle: the first loop status is non-terminal, all later
statuses terminal (the loop runs exactly one body). -/
def cWorld : Nat → Response := fun n => if n = 4 then cRespGo else cRespDone

/-- `cWorld` with only the job-creation response's ARN changed. -/
def cWorldB : Nat → Response :=
  fun n => if n = 3 then cRespOther else cWorld n

/-- A three-row concrete frame with a `'Churn?'` column. -/
def cFrame : Frame :=
  ⟨["State", "Churn?"], [["a", "True."], ["b", "False."], ["c", "True."]]⟩

/-- A status stream whose first status is non-terminal and all later ones
terminal. -/
def cPollW : Nat → Response := fun k => if k = 0 then cRespGo else cRespDone

/-! Interpreter lemmas. -/

@[simp] theorem run_pure {α : Type} (a : α) (w : Nat → Response) (n : Nat) :
    run (.pure a) w n = ⟨[], n, a⟩ := rfl

@[simp] theorem run_call {α : Type} (c : ApiCall) (f : Response → Prog α)
    (w : Nat → Response) (n : Nat) :
    run (.call c f) w n = RunOut.prepend [Ev.api c] (run (f (w n)) w (n + 1)) := rfl

@[simp] theorem run_emit {α : Type} (e : LocalEv) (p : Prog α)
    (w : Nat → Response) (n : Nat) :
    run (.emit e p) w n = RunOut.prepend [Ev.loc e] (run p w n) := rfl

@[simp] theorem prepend_trace {α : Type} (es : List Ev) (r : RunOut α) :
    (RunOut.prepend es r).trace = es ++ r.trace := rfl

@[simp] theorem prepend_next {α : Type} (es : List Ev) (r : RunOut α) :
    (RunOut.prepend es r).next = r.next := rfl

@[simp] theorem prepend_val {α : Type} (es : List Ev) (r : RunOut α) :
    (RunOut.prepend es r).val = r.val := rfl

theorem prepend_prepend {α : Type} (es fs : List Ev) (r : RunOut α) :
    RunOut.prepend es (RunOut.prepend fs r) = RunOut.prepend (es ++ fs) r := by
  simp [RunOut.prepend]

@[simp] theorem prepend_nil {α : Type} (r : RunOut α) :
    RunOut.prepend [] r = r := by
  simp [RunOut.prepend]

theorem exec_EvOK {α : Type} (P : Ev → Prop) :
    ∀ (p : Prog α) (w : Nat → Except String Response) (n : Nat),
      EvOK P p → ∀ e ∈ (exec p w n).trace, P e := by
  intro p
  induction p with
  | pure a => intro w n _ e he; simp [exec] at he
  | call c f ih =>
    intro w n hok e he
    rw [EvOK] at hok
    rcases hok with ⟨hc, hf⟩
    rw [exec] at he
    cases hw : w n with
    | error msg =>
      rw [hw] at he
      simp at he
      simpa [he] using hc
    | ok r =>
      rw [hw] at he
      simp [RunOut.prepend] at he
      rcases he with he | he
      · simpa [he] using hc
      · exact ih r w (n + 1) (hf r) e he
  | emit ev p ih =>
    intro w n hok e he
    rw [EvOK] at hok
    rcases hok with ⟨hev, hp⟩
    rw [exec] at he
    simp [RunOut.prepend] at he
    rcases he with he | he
    · simpa [he] using hev
    · exact ih w n hp e he

theorem run_EvOK {α : Type} (P : Ev → Prop) :
    ∀ (p : Prog α) (w : Nat → Response) (n : Nat),
      EvOK P p → ∀ e ∈ (run p w n).trace, P e := by
  intro p
  induction p with
  | pure a => intro w n _ e he; simp [run] at he
  | call c f ih =>
    intro w n hok e he
    rw [EvOK] at hok
    rcases hok with ⟨hc, hf⟩
    simp [run, RunOut.prepend] at he
    rcases he with he | he
    · simpa [he] using hc
    · exact ih (w n) w (n + 1) (hf (w n)) e he
  | emit ev p ih =>
    intro w n hok e he
    rw [EvOK] at hok
    rcases hok with ⟨hev, hp⟩
    simp [run, RunOut.prepend] at he
    rcases he with he | he
    · simpa [he] using hev
    · exact ih w n hp e he

/-! Polling-loop lemmas. -/

theorem lastResp_shift (w : Nat → Response) (n : Nat) :
    ∀ m, lastResp (w n) w (n + 1) m = w (n + m) := by
  intro m
  cases m with
  | zero => rfl
  | succ j =>
    show w (n + 1 + j) = w (n + (j + 1))
    congr 1
    omega

/-- Master characterization of the polling loop: run it against oracle `w`
and the trace, final counter and result are determined by the index of the
first terminal status. -/
theorem run_pollBody {α : Type} (name : String) (cont : Option Response → Prog α)
    (w : Nat → Response) :
    ∀ (fuel n : Nat) (r : Response),
      run (pollBody name cont fuel r) w n =
        match firstTermFrom w r n fuel with
        | some m =>
            RunOut.prepend (pollTrace name m)
              (run (cont (some (lastResp r w n m))) w (n + m))
        | none =>
            RunOut.prepend (pollTrace name fuel) (run (cont none) w (n + fuel)) := by
  intro fuel
  induction fuel with
  | zero =>
    intro n r
    by_cases h : isTerminal r.status <;>
      simp [pollBody, firstTermFrom, h, pollTrace, lastResp]
  | succ f ih =>
    intro n r
    by_cases h : isTerminal r.status
    · simp [pollBody, firstTermFrom, h, pollTrace, lastResp]
    · rw [pollBody, if_neg (by simp [h]), firstTermFrom, if_neg (by simp [h])]
      rw [run_call, run_emit, ih (n + 1) (w n)]
      cases h2 : firstTermFrom w (w n) (n + 1) f with
      | none =>
        simp only [Option.map_none']
        rw [prepend_prepend, prepend_prepend]
        have harith : n + 1 + f = n + (f + 1) := by omega
        rw [harith]
        rfl
      | some m =>
        simp only [Option.map_some']
        rw [prepend_prepend, prepend_prepend, lastResp_shift]
        have harith : n + 1 + m = n + (m + 1) := by omega
        rw [harith]
        have hlast : lastResp r w n (m + 1) = w (n + m) := rfl
        rw [hlast]
        rfl

/-- If the statuses `w n, w (n+1), …` reach a terminal one at offset `m`
first, the search finds exactly `m` (for any sufficient fuel). -/
theorem firstTermFrom_eq_some (w : Nat → Response) :
    ∀ (m n : Nat), isTerminal ((w (n + m)).status) = true →
      (∀ i, i < m → isTerminal ((w (n + i)).status) = false) →
      ∀ fuel, m ≤ fuel → firstTermFrom w (w n) (n + 1) fuel = some m := by
  intro m
  induction m with
  | zero =>
    intro n hterm _ fuel _
    have hterm0 : isTerminal ((w n).status) = true := by simpa using hterm
    cases fuel <;> simp [firstTermFrom, hterm0]
  | succ j ih =>
    intro n hterm hpre fuel hfuel
    have h0 : isTerminal ((w n).status) = false := by simpa using hpre 0 (by omega)
    cases fuel with
    | zero => omega
    | succ f =>
      rw [firstTermFrom, if_neg (by simp [h0])]
      have := ih (n + 1)
        (by have : n + 1 + j = n + (j + 1) := by omega
            rw [this]; exact hterm)
        (by intro i hi
            have : n + 1 + i = n + (i + 1) := by omega
            rw [this]; exact hpre (i + 1) (by omega))
        f (by omega)
      rw [this]
      rfl

/-- Conversely, a successful search yields the first terminal offset. -/
theorem firstTermFrom_some_inv (w : Nat → Response) :
    ∀ (fuel n m : Nat), firstTermFrom w (w n) (n + 1) fuel = some m →
      m ≤ fuel ∧ isTerminal ((w (n + m)).status) = true ∧
        ∀ i, i < m → isTerminal ((w (n + i)).status) = false := by
  intro fuel
  induction fuel with
  | zero =>
    intro n m h
    rw [firstTermFrom] at h
    by_cases ht : isTerminal ((w n).status)
    · rw [if_pos (by simpa using ht)] at h
      obtain rfl : m = 0 := by simpa using h.symm
      refine ⟨le_refl 0, by simpa using ht, by omega⟩
    · rw [if_neg (by simpa using ht)] at h
      simp at h
  | succ f ih =>
    intro n m h
    rw [firstTermFrom] at h
    by_cases ht : isTerminal ((w n).status)
    · rw [if_pos (by simpa using ht)] at h
      obtain rfl : m = 0 := by simpa using h.symm
      refine ⟨by omega, by simpa using ht, by omega⟩
    · rw [if_neg (by simpa using ht)] at h
      cases m with
      | zero =>
        exfalso
        cases h3 : firstTermFrom w (w (n + 1)) (n + 1 + 1) f with
        | none => rw [h3] at h; simp at h
        | some j => rw [h3] at h; simp at h
      | succ j =>
        have h3 : firstTermFrom w (w (n + 1)) (n + 1 + 1) f = some j := by
          cases h4 : firstTermFrom w (w (n + 1)) (n + 1 + 1) f with
          | none => rw [h4] at h; simp at h
          | some j2 =>
            rw [h4] at h
            simp at h
            rw [h]
        obtain ⟨hle, hterm, hpre⟩ := ih (n + 1) j h3
        refine ⟨by omega, ?_, ?_⟩
        · have : n + 1 + j = n + (j + 1) := by omega
          rw [this] at hterm
          exact hterm
        · intro i hi
          cases i with
          | zero => simpa using ht
          | succ i2 =>
            have : n + 1 + i2 = n + (i2 + 1) := by omega
            rw [← this]
            exact hpre i2 (by omega)

/-- If no status in the searched window is terminal, the search fails. -/
theorem firstTermFrom_eq_none (w : Nat → Response) :
    ∀ (fuel n : Nat), (∀ i, isTerminal ((w (n + i)).status) = false) →
      firstTermFrom w (w n) (n + 1) fuel = none := by
  intro fuel
  induction fuel with
  | zero =>
    intro n hall
    rw [firstTermFrom, if_neg (by simpa using (hall 0 : _))]
  | succ f ih =>
    intro n hall
    rw [firstTermFrom, if_neg (by simpa using (hall 0 : _))]
    rw [ih (n + 1) (by
      intro i
      have : n + 1 + i = n + (i + 1) := by omega
      rw [this]
      exact hall (i + 1))]
    rfl

/-- Characterization of the full polling segment (initial describe plus
loop) in terms of the status sequence. -/
theorem run_pollSegment (name : String) (w : Nat → Response) (fuel n : Nat) :
    run (pollSegment name fuel) w n =
      match firstTermFrom w (w n) (n + 1) fuel with
      | some m =>
          ⟨Ev.api (.describeAutoMLJob name) :: pollTrace name m, n + 1 + m,
           some (w (n + m))⟩
      | none =>
          ⟨Ev.api (.describeAutoMLJob name) :: pollTrace name fuel, n + 1 + fuel,
           none⟩ := by
  rw [pollSegment, run_call, run_pollBody]
  cases h : firstTermFrom w (w n) (n + 1) fuel with
  | some m =>
    simp only [lastResp_shift, run_pure, prepend_prepend, RunOut.prepend]
    simp
  | none =>
    simp only [run_pure, prepend_prepend, RunOut.prepend]
    simp

/-! Poll-trace bookkeeping. -/

theorem pollTrace_mem (name : String) :
    ∀ m e, e ∈ pollTrace name m →
      e = Ev.api (.describeAutoMLJob name) ∨ e = Ev.loc (.sleep 30) := by
  intro m
  induction m with
  | zero => intro e he; simp [pollTrace] at he
  | succ k ih =>
    intro e he
    simp only [pollTrace, List.mem_cons] at he
    rcases he with he | he | he
    · exact Or.inl he
    · exact Or.inr he
    · exact ih e he

theorem pollTrace_countP_describe (name : String) :
    ∀ m, (pollTrace name m).countP
      (fun e => e == Ev.api (.describeAutoMLJob name)) = m := by
  intro m
  induction m with
  | zero => rfl
  | succ k ih => simp [pollTrace, List.countP_cons, ih]

theorem pollTrace_countP_sleep (name : String) :
    ∀ m, (pollTrace name m).countP (fun e => e == Ev.loc (.sleep 30)) = m := by
  intro m
  induction m with
  | zero => rfl
  | succ k ih => simp [pollTrace, List.countP_cons, ih]

theorem pollTrace_countP_zero (name : String) (p : Ev → Bool)
    (h1 : p (Ev.api (.describeAutoMLJob name)) = false)
    (h2 : p (Ev.loc (.sleep 30)) = false) :
    ∀ m, (pollTrace name m).countP p = 0 := by
  intro m
  induction m with
  | zero => rfl
  | succ k ih => simp [pollTrace, List.countP_cons, h1, h2, ih]

theorem pollTrace_countApi (name : String) :
    ∀ m, countApi (pollTrace name m) = m := by
  intro m
  induction m with
  | zero => rfl
  | succ k ih => simp [pollTrace, countApi, ih]

theorem pollTrace_filterMap_none {β : Type} (name : String) (g : Ev → Option β)
    (h1 : g (Ev.api (.describeAutoMLJob name)) = none)
    (h2 : g (Ev.loc (.sleep 30)) = none) :
    ∀ m, (pollTrace name m).filterMap g = [] := by
  intro m
  induction m with
  | zero => rfl
  | succ k ih => simp [pollTrace, List.filterMap_cons, h1, h2, ih]

/-- C1: the polling loop exits exactly when the most recently observed job
status is terminal (`'Failed'`, `'Completed'` or `'Stopped'`); on every
observed non-terminal status (e.g. `'InProgress'`) it performs one more
status query and one fixed 30-second sleep; it never exits while the
observed status is non-terminal. -/
theorem claim_C1_polling_loop :
    (∀ (name : String) (w : Nat → Response) (n fuel : Nat) (r : Response),
      (run (pollSegment name fuel) w n).val = some r →
      ∃ m, m ≤ fuel ∧
        isTerminal ((w (n + m)).status) = true ∧
        (∀ i, i < m → isTerminal ((w (n + i)).status) = false) ∧
        r = w (n + m) ∧
        (run (pollSegment name fuel) w n).trace =
          Ev.api (.describeAutoMLJob name) :: pollTrace name m ∧
        (pollTrace name m).countP (fun e => e == Ev.loc (.sleep 30)) = m ∧
        (pollTrace name m).countP
          (fun e => e == Ev.api (.describeAutoMLJob name)) = m) ∧
    isTerminal "InProgress" = false ∧ isTerminal "Failed" = true ∧
    isTerminal "Completed" = true ∧ isTerminal "Stopped" = true := by
  refine ⟨?_, by decide, by decide, by decide, by decide⟩
  intro name w n fuel r hval
  rw [run_pollSegment] at hval ⊢
  cases h : firstTermFrom w (w n) (n + 1) fuel with
  | none =>
    rw [h] at hval
    simp at hval
  | some m =>
    rw [h] at hval
    obtain ⟨hle, hterm, hpre⟩ := firstTermFrom_some_inv w fuel n m h
    have hr : w (n + m) = r := by simpa using hval
    exact ⟨m, hle, hterm, hpre, hr.symm, rfl,
      pollTrace_countP_sleep name m, pollTrace_countP_describe name m⟩

theorem claim_C1_polling_loop_witness :
    (run (pollSegment "automl-churn-t1" 2) (fun _ => cRespDone) 0).val =
      some cRespDone ∧
    ∃ m, m ≤ 2 ∧
      isTerminal (((fun (_ : Nat) => cRespDone) (0 + m)).status) = true := by
  refine ⟨by decide, ?_⟩
  obtain ⟨m, h1, h2, -⟩ :=
    claim_C1_polling_loop.1 "automl-churn-t1" (fun _ => cRespDone) 0 2 cRespDone
      (by decide)
  exact ⟨m, h1, h2⟩

/-- C6: termination of the polling loop depends only on the status
sequence returned by the service.  If a terminal status first appears
after `m` non-terminal ones, the loop stops (for every fuel bound of at
least `m`, i.e. with no client-side bound interfering) after exactly
`m + 1` status queries; if no terminal status ever appears, the loop is
still running at every fuel bound — nothing client-side ends it. -/
theorem claim_C6_poll_termination :
    (∀ (name : String) (w : Nat → Response) (n m : Nat),
      isTerminal ((w (n + m)).status) = true →
      (∀ i, i < m → isTerminal ((w (n + i)).status) = false) →
      ∀ fuel, m ≤ fuel →
        (run (pollSegment name fuel) w n).val = some (w (n + m)) ∧
        countApi (run (pollSegment name fuel) w n).trace = m + 1) ∧
    (∀ (name : String) (w : Nat → Response) (n : Nat),
      (∀ i, isTerminal ((w (n + i)).status) = false) →
      ∀ fuel, (run (pollSegment name fuel) w n).val = none) := by
  constructor
  · intro name w n m hterm hpre fuel hfuel
    rw [run_pollSegment, firstTermFrom_eq_some w m n hterm hpre fuel hfuel]
    simp [countApi, pollTrace_countApi]
  · intro name w n hall fuel
    rw [run_pollSegment, firstTermFrom_eq_none w fuel n hall]

theorem claim_C6_poll_termination_witness :
    ((run (pollSegment "j" 5) cPollW 0).val = some (cPollW (0 + 1)) ∧
      countApi (run (pollSegment "j" 5) cPollW 0).trace = 1 + 1) ∧
    (run (pollSegment "j" 3) (fun _ => cRespGo) 0).val = none := by
  constructor
  · exact claim_C6_poll_termination.1 "j" cPollW 0 1 (by decide)
      (by intro i hi
          have hz : i = 0 := by omega
          subst hz
          decide)
      5 (by omega)
  · exact claim_C6_poll_termination.2 "j" (fun _ => cRespGo)
      0 (by intro i; show isTerminal cRespGo.status = false; decide) 3

/-- Characterization of a complete notebook run: if the polling loop
observes its first terminal status after `m` loop bodies (and the fuel
bound does not interfere), the trace, the number of remote calls and the
final value are fully determined. -/
theorem run_script (f : Frame) (ts1 ts2 role : String) (w : Nat → Response)
    (fuel m : Nat) (hfuel : m ≤ fuel)
    (hterm : isTerminal ((w (4 + m)).status) = true)
    (hpre : ∀ i, i < m → isTerminal ((w (4 + i)).status) = false) :
    run (scriptProg f ts1 ts2 role fuel) w 0 =
      ⟨fullTrace f ts1 ts2 role w m, 14 + m, some (finalAcc f w m)⟩ := by
  have hftf : firstTermFrom w (w 4) 5 fuel = some m := by
    have h0 := firstTermFrom_eq_some w m 4 hterm hpre fuel hfuel
    simpa using h0
  have hlast : lastResp (w 4) w 5 m = w (4 + m) := by
    have h1 := lastResp_shift w 4 m
    simpa using h1
  rw [scriptProg]
  simp only [run_call, run_emit]
  norm_num
  rw [run_pollBody, hftf]
  simp only [hlast]
  simp only [run_call, run_emit, run_pure, prepend_prepend, RunOut.prepend]
  simp [fullTrace, finalAcc, pollTrace]
  have h7 : 5 + m + 1 + 1 = 7 + m := by omega
  have h13 : 7 + m + 1 + 1 + 1 + 1 + 1 + 1 = 13 + m := by omega
  rw [h7, h13]
  refine ⟨by simp, by omega, rfl⟩

/-! Facts about the full trace. -/

theorem fullTrace_countP_createJob (f : Frame) (ts1 ts2 role : String)
    (w : Nat → Response) (m : Nat) :
    (fullTrace f ts1 ts2 role w m).countP isCreateJobEv = 1 := by
  have hp := pollTrace_countP_zero ("automl-churn-" ++ ts1) isCreateJobEv rfl rfl m
  simp [fullTrace, List.countP_cons, List.countP_append, hp, isCreateJobEv]

theorem fullTrace_mem_createJob (f : Frame) (ts1 ts2 role : String)
    (w : Nat → Response) (m : Nat) :
    Ev.api (.createAutoMLJob ("automl-churn-" ++ ts1)
        ("s3://" ++ bucketOf (w 0) ++ "/" ++ pfx ++ "/train") "Churn?"
        ("s3://" ++ bucketOf (w 0) ++ "/" ++ pfx ++ "/output") 20 role) ∈
      fullTrace f ts1 ts2 role w m := by
  simp [fullTrace]

theorem fullTrace_describe_name (f : Frame) (ts1 ts2 role : String)
    (w : Nat → Response) (m : Nat) (nm : String) :
    Ev.api (.describeAutoMLJob nm) ∈ fullTrace f ts1 ts2 role w m →
      nm = "automl-churn-" ++ ts1 := by
  intro hmem
  simp only [fullTrace] at hmem
  rcases List.mem_append.mp hmem with h | hB
  · rcases List.mem_append.mp h with hA | hP
    · simp at hA
      exact hA
    · rcases pollTrace_mem _ m _ hP with h2 | h2
      · simp at h2
        exact h2
      · simp at h2
  · simp at hB
    exact hB

theorem fullTrace_listCandidates_name (f : Frame) (ts1 ts2 role : String)
    (w : Nat → Response) (m : Nat) (nm : String) :
    Ev.api (.listCandidates nm) ∈ fullTrace f ts1 ts2 role w m →
      nm = "automl-churn-" ++ ts1 := by
  intro hmem
  simp only [fullTrace] at hmem
  rcases List.mem_append.mp hmem with h | hB
  · rcases List.mem_append.mp h with hA | hP
    · simp at hA
    · rcases pollTrace_mem _ m _ hP with h2 | h2 <;> simp at h2
  · simp at hB
    exact hB

/-- C3, counterexample to the claim as stated.  The notebook generates the
job name client-side (`'automl-churn-' + timestamp_suffix`) before the
call, and the response of `create_auto_ml_job` (which carries the job ARN)
is displayed but never read: the later steps use the client-generated
name, not anything received back from the call.  Concretely: two oracles
that differ only in the ARN returned by the job-creation call produce
identical runs, and the job handle used by the later describe calls
differs from the returned ARN. -/
theorem claim_C3_counterexample :
    (cWorld 3).arn = "arn:received" ∧
    (cWorldB 3).arn = "arn:other" ∧
    (∀ i, i ≠ 3 → cWorld i = cWorldB i) ∧
    Ev.api (.describeAutoMLJob "automl-churn-t1") ∈
      (run (scriptProg cFrame "t1" "t2" "role" 2) cWorld 0).trace ∧
    (¬ Ev.api (.describeAutoMLJob "arn:received") ∈
      (run (scriptProg cFrame "t1" "t2" "role" 2) cWorld 0).trace) ∧
    run (scriptProg cFrame "t1" "t2" "role" 2) cWorld 0 =
      run (scriptProg cFrame "t1" "t2" "role" 2) cWorldB 0 := by
  refine ⟨by decide, by decide, ?_, by decide, by decide, by rfl⟩
  intro i hi
  simp [cWorldB, hi]

/-- C3 (amended): the script issues exactly one job-creation call; its
payload carries the input S3 location, the target column name `'Churn?'`,
the output S3 location and a candidate limit of 20; the job handle used by
every later job-referencing call (describe, list-candidates) is the
client-generated job name `'automl-churn-' + timestamp_suffix` that was
sent in the request — not a handle received back from the call. -/
theorem claim_C3_job_submission (f : Frame) (ts1 ts2 role : String)
    (w : Nat → Response) (fuel m : Nat) (hfuel : m ≤ fuel)
    (hterm : isTerminal ((w (4 + m)).status) = true)
    (hpre : ∀ i, i < m → isTerminal ((w (4 + i)).status) = false) :
    (run (scriptProg f ts1 ts2 role fuel) w 0).trace.countP isCreateJobEv = 1 ∧
    Ev.api (.createAutoMLJob ("automl-churn-" ++ ts1)
        ("s3://" ++ bucketOf (w 0) ++ "/" ++ pfx ++ "/train") "Churn?"
        ("s3://" ++ bucketOf (w 0) ++ "/" ++ pfx ++ "/output") 20 role) ∈
      (run (scriptProg f ts1 ts2 role fuel) w 0).trace ∧
    (∀ nm, Ev.api (.describeAutoMLJob nm) ∈
        (run (scriptProg f ts1 ts2 role fuel) w 0).trace →
      nm = "automl-churn-" ++ ts1) ∧
    (∀ nm, Ev.api (.listCandidates nm) ∈
        (run (scriptProg f ts1 ts2 role fuel) w 0).trace →
      nm = "automl-churn-" ++ ts1) := by
  rw [run_script f ts1 ts2 role w fuel m hfuel hterm hpre]
  exact ⟨fullTrace_countP_createJob f ts1 ts2 role w m,
    fullTrace_mem_createJob f ts1 ts2 role w m,
    fullTrace_describe_name f ts1 ts2 role w m,
    fullTrace_listCandidates_name f ts1 ts2 role w m⟩

theorem claim_C3_job_submission_witness :
    (run (scriptProg cFrame "t1" "t2" "role" 2) cWorld 0).trace.countP
      isCreateJobEv = 1 := by
  have h := claim_C3_job_submission cFrame "t1" "t2" "role" cWorld 2 1
    (by omega)
    (by decide)
    (by intro i hi
        have hz : i = 0 := by omega
        subst hz
        decide)
  exact h.1

/-- C4: the deployment step performs exactly three creation calls in
order — `create_model` with the best candidate's inference containers,
then `create_endpoint_config` referencing that model name, then
`create_endpoint` referencing that config name — followed by the
endpoint-readiness wait, and the single inference request comes only after
the wait.  (`w (7 + m)` is the describe response the best candidate is
read from in cell 24.) -/
theorem claim_C4_deployment (f : Frame) (ts1 ts2 role : String)
    (w : Nat → Response) (fuel m : Nat) (hfuel : m ≤ fuel)
    (hterm : isTerminal ((w (4 + m)).status) = true)
    (hpre : ∀ i, i < m → isTerminal ((w (4 + i)).status) = false) :
    (run (scriptProg f ts1 ts2 role fuel) w 0).trace.countP isDeployCreateEv = 3 ∧
    (run (scriptProg f ts1 ts2 role fuel) w 0).trace.countP isInvokeEv = 1 ∧
    ∃ pre,
      (run (scriptProg f ts1 ts2 role fuel) w 0).trace =
        pre ++
          [Ev.api (.createModel ((w (7 + m)).bestName ++ ts2 ++ "-model")
              (w (7 + m)).bestContainers role),
           Ev.api (.createEndpointConfig ((w (7 + m)).bestName ++ ts2 ++ "-epc")
              "ml.m5.2xlarge" 1 ((w (7 + m)).bestName ++ ts2 ++ "-model") "main"),
           Ev.api (.createEndpoint ((w (7 + m)).bestName ++ ts2 ++ "-ep")
              ((w (7 + m)).bestName ++ ts2 ++ "-epc")),
           Ev.api (.waitEndpointInService ((w (7 + m)).bestName ++ ts2 ++ "-ep")),
           Ev.api (.invokeEndpoint ((w (7 + m)).bestName ++ ts2 ++ "-ep")
              (testFileContent f))] ∧
      pre.countP isDeployCreateEv = 0 ∧ pre.countP isWaitEv = 0 ∧
      pre.countP isInvokeEv = 0 := by
  rw [run_script f ts1 ts2 role w fuel m hfuel hterm hpre]
  have hz1 := pollTrace_countP_zero ("automl-churn-" ++ ts1) isDeployCreateEv rfl rfl m
  have hz2 := pollTrace_countP_zero ("automl-churn-" ++ ts1) isWaitEv rfl rfl m
  have hz3 := pollTrace_countP_zero ("automl-churn-" ++ ts1) isInvokeEv rfl rfl m
  refine ⟨?_, ?_, ?_⟩
  · simp [fullTrace, List.countP_append, List.countP_cons, hz1,
      isDeployCreateEv]
  · simp [fullTrace, List.countP_append, List.countP_cons, hz3, isInvokeEv]
  · refine ⟨[Ev.api .listBuckets,
       Ev.loc (.write "train_data.csv" (trainFileContent f)),
       Ev.api (.s3Upload "train_data.csv" (pfx ++ "/train")),
       Ev.loc (.write "test_data.csv" (testFileContent f)),
       Ev.api (.s3Upload "test_data.csv" (pfx ++ "/test")),
       Ev.api (.createAutoMLJob ("automl-churn-" ++ ts1)
         ("s3://" ++ bucketOf (w 0) ++ "/" ++ pfx ++ "/train") "Churn?"
         ("s3://" ++ bucketOf (w 0) ++ "/" ++ pfx ++ "/output") 20 role),
       Ev.api (.describeAutoMLJob ("automl-churn-" ++ ts1))]
      ++ pollTrace ("automl-churn-" ++ ts1) m
      ++ [Ev.api (.s3Download (splitS3Str (w (4 + m)).candidateNbk).1
            (splitS3Str (w (4 + m)).candidateNbk).2),
          Ev.api (.s3Download (splitS3Str (w (4 + m)).candidateNbk).1
            (splitS3Str (w (4 + m)).dataExploreNbk).2),
          Ev.api (.describeAutoMLJob ("automl-churn-" ++ ts1)),
          Ev.api (.listCandidates ("automl-churn-" ++ ts1))], ?_, ?_, ?_, ?_⟩
    · simp [fullTrace, List.append_assoc]
    · simp [List.countP_append, List.countP_cons, hz1, isDeployCreateEv]
    · simp [List.countP_append, List.countP_cons, hz2, isWaitEv]
    · simp [List.countP_append, List.countP_cons, hz3, isInvokeEv]

theorem claim_C4_deployment_witness :
    (run (scriptProg cFrame "t1" "t2" "role" 2) cWorld 0).trace.countP
      isDeployCreateEv = 3 := by
  have h := claim_C4_deployment cFrame "t1" "t2" "role" cWorld 2 1
    (by omega)
    (by decide)
    (by intro i hi
        have hz : i = 0 := by omega
        subst hz
        decide)
  exact h.1

/-! Accuracy: the positional comparison of cell 33 agrees with the
specification's per-row count. -/

theorem zip_countP_eq_filter_range (truth : List String) :
    ∀ preds : List String, preds.length = truth.length →
      (truth.zip preds).countP (fun q => q.1 == q.2) =
        ((List.range truth.length).filter
          (fun i => truth.getD i "" == preds.getD i "")).length := by
  induction truth with
  | nil => intro preds _; simp
  | cons a t ih =>
    intro preds hlen
    cases preds with
    | nil => simp at hlen
    | cons b pr =>
      have hlen2 : pr.length = t.length := by
        simpa using hlen
      have hfun : ((fun i => (a :: t).getD i "" == (b :: pr).getD i "") ∘ Nat.succ)
          = (fun i => t.getD i "" == pr.getD i "") := by
        funext i
        simp [List.getD_cons_succ]
      rw [List.length_cons, List.range_succ_eq_map, List.zip_cons_cons,
        List.countP_cons, List.filter_cons, List.filter_map, hfun, ih pr hlen2]
      by_cases hab : (a == b) = true
      · simp [hab, List.getD_cons_zero]
      · have hab2 : (a == b) = false := by
          simpa using hab
        simp [hab2, List.getD_cons_zero]

theorem accuracyOf_eq_specAccuracy (truth preds : List String)
    (h : preds.length = truth.length) :
    accuracyOf truth preds = specAccuracy truth preds := by
  rw [accuracyOf, specAccuracy, zip_countP_eq_filter_range truth preds h]

/-- C5: the inference step sends the endpoint exactly the held-out test
rows serialized as comma-separated text with the `'Churn?'` column removed
and no header or index; the response is parsed into comma-separated
predicted labels; and the computed accuracy equals the number of test rows
whose ground-truth label equals the predicted label divided by the total
number of test rows.  (`w (13 + m)` is the endpoint's response; the
hypothesis `hlen` says the endpoint returned one label per sent row, which
the Python code also requires — a length mismatch raises in pandas.) -/
theorem claim_C5_inference (f : Frame) (ts1 ts2 role : String)
    (w : Nat → Response) (fuel m : Nat) (hfuel : m ≤ fuel)
    (hterm : isTerminal ((w (4 + m)).status) = true)
    (hpre : ∀ i, i < m → isTerminal ((w (4 + i)).status) = false)
    (hlen : (parsePreds ((w (13 + m)).body)).length = (truthVals f).length) :
    Ev.api (.invokeEndpoint ((w (7 + m)).bestName ++ ts2 ++ "-ep")
        (testFileContent f)) ∈
      (run (scriptProg f ts1 ts2 role fuel) w 0).trace ∧
    testFileContent f =
      csvRender [] ((testRows f.rows).map (dropChurnRow f.header)) false ∧
    (run (scriptProg f ts1 ts2 role fuel) w 0).val =
      some (specAccuracy (truthVals f) (parsePreds ((w (13 + m)).body))) := by
  rw [run_script f ts1 ts2 role w fuel m hfuel hterm hpre]
  refine ⟨by simp [fullTrace], rfl, ?_⟩
  simp only [finalAcc]
  rw [accuracyOf_eq_specAccuracy _ _ hlen]

theorem claim_C5_inference_witness :
    (run (scriptProg cFrame "t1" "t2" "role" 2) cWorld 0).val =
      some (specAccuracy (truthVals cFrame)
        (parsePreds ((cWorld (13 + 1)).body))) := by
  have h := claim_C5_inference cFrame "t1" "t2" "role" cWorld 2 1
    (by omega)
    (by decide)
    (by intro i hi
        have hz : i = 0 := by omega
        subst hz
        decide)
    (by decide)
  exact h.2.2

/-! No teardown: the delete calls exist only in a markdown cell. -/

theorem pollBody_EvOK {α : Type} (P : Ev → Prop) (name : String)
    (cont : Option Response → Prog α)
    (hd : P (Ev.api (.describeAutoMLJob name))) (hs : P (Ev.loc (.sleep 30)))
    (hcont : ∀ x, EvOK P (cont x)) :
    ∀ (fuel : Nat) (r : Response), EvOK P (pollBody name cont fuel r) := by
  intro fuel
  induction fuel with
  | zero =>
    intro r
    rw [pollBody]
    by_cases h : isTerminal r.status
    · rw [if_pos h]; exact hcont _
    · rw [if_neg h]; exact hcont none
  | succ g ih =>
    intro r
    rw [pollBody]
    by_cases h : isTerminal r.status
    · rw [if_pos h]; exact hcont _
    · rw [if_neg h]
      exact ⟨hd, fun r2 => ⟨hs, ih r2⟩⟩

theorem scriptProg_EvOK_noDelete (f : Frame) (ts1 ts2 role : String)
    (fuel : Nat) :
    EvOK (fun e => isDeleteEv e = false) (scriptProg f ts1 ts2 role fuel) := by
  rw [scriptProg]
  refine ⟨rfl, fun rb => ⟨rfl, rfl, fun _ => ⟨rfl, rfl, fun _ => ⟨rfl, fun _ =>
    ⟨rfl, fun r0 => ?_⟩⟩⟩⟩⟩
  refine pollBody_EvOK (fun e => isDeleteEv e = false) ("automl-churn-" ++ ts1)
    _ rfl rfl ?_ fuel r0
  intro x
  cases x with
  | none => exact trivial
  | some lastR =>
    exact ⟨rfl, fun _ => ⟨rfl, fun _ => ⟨rfl, fun rBest => ⟨rfl, fun _ =>
      ⟨rfl, fun _ => ⟨rfl, fun _ => ⟨rfl, fun _ => ⟨rfl, fun _ =>
        ⟨rfl, fun rp => trivial⟩⟩⟩⟩⟩⟩⟩⟩⟩

theorem fullTrace_created_models (f : Frame) (ts1 ts2 role : String)
    (w : Nat → Response) (m : Nat) :
    createdModels (fullTrace f ts1 ts2 role w m) =
      [(w (7 + m)).bestName ++ ts2 ++ "-model"] := by
  have hp := pollTrace_filterMap_none ("automl-churn-" ++ ts1)
    (fun e => match e with
      | Ev.api (ApiCall.createModel n _ _) => some n
      | _ => none) rfl rfl m
  simp [createdModels, fullTrace, List.filterMap_append, hp]

theorem fullTrace_created_configs (f : Frame) (ts1 ts2 role : String)
    (w : Nat → Response) (m : Nat) :
    createdConfigs (fullTrace f ts1 ts2 role w m) =
      [(w (7 + m)).bestName ++ ts2 ++ "-epc"] := by
  have hp := pollTrace_filterMap_none ("automl-churn-" ++ ts1)
    (fun e => match e with
      | Ev.api (ApiCall.createEndpointConfig n _ _ _ _) => some n
      | _ => none) rfl rfl m
  simp [createdConfigs, fullTrace, List.filterMap_append, hp]

theorem fullTrace_created_endpoints (f : Frame) (ts1 ts2 role : String)
    (w : Nat → Response) (m : Nat) :
    createdEndpoints (fullTrace f ts1 ts2 role w m) =
      [(w (7 + m)).bestName ++ ts2 ++ "-ep"] := by
  have hp := pollTrace_filterMap_none ("automl-churn-" ++ ts1)
    (fun e => match e with
      | Ev.api (ApiCall.createEndpoint n _) => some n
      | _ => none) rfl rfl m
  simp [createdEndpoints, fullTrace, List.filterMap_append, hp]

theorem fullTrace_deleted_empty (f : Frame) (ts1 ts2 role : String)
    (w : Nat → Response) (m : Nat) :
    deletedModels (fullTrace f ts1 ts2 role w m) = [] ∧
    deletedConfigs (fullTrace f ts1 ts2 role w m) = [] ∧
    deletedEndpoints (fullTrace f ts1 ts2 role w m) = [] := by
  have hp1 := pollTrace_filterMap_none ("automl-churn-" ++ ts1)
    (fun e => match e with
      | Ev.api (ApiCall.deleteModel n) => some n
      | _ => none) rfl rfl m
  have hp2 := pollTrace_filterMap_none ("automl-churn-" ++ ts1)
    (fun e => match e with
      | Ev.api (ApiCall.deleteEndpointConfig n) => some n
      | _ => none) rfl rfl m
  have hp3 := pollTrace_filterMap_none ("automl-churn-" ++ ts1)
    (fun e => match e with
      | Ev.api (ApiCall.deleteEndpoint n) => some n
      | _ => none) rfl rfl m
  refine ⟨?_, ?_, ?_⟩ <;>
    simp [deletedModels, deletedConfigs, deletedEndpoints, fullTrace,
      List.filterMap_append, hp1, hp2, hp3]

/-- C8: in every execution of the script — whatever the service responds,
and even if some call fails — no delete-endpoint, delete-endpoint-config
or delete-model call is ever issued (that code exists only in a
non-executable markdown cell); consequently, on a completed run the model,
endpoint configuration and endpoint created earlier are still in existence
(created once and never deleted) when the script finishes. -/
theorem claim_C8_no_teardown :
    (∀ (f : Frame) (ts1 ts2 role : String) (fuel : Nat)
       (w2 : Nat → Except String Response) (e : Ev),
       e ∈ (exec (scriptProg f ts1 ts2 role fuel) w2 0).trace →
       isDeleteEv e = false) ∧
    (∀ (f : Frame) (ts1 ts2 role : String) (w : Nat → Response) (fuel m : Nat),
       m ≤ fuel → isTerminal ((w (4 + m)).status) = true →
       (∀ i, i < m → isTerminal ((w (4 + i)).status) = false) →
       ((w (7 + m)).bestName ++ ts2 ++ "-model") ∈
           createdModels (run (scriptProg f ts1 ts2 role fuel) w 0).trace ∧
         ((w (7 + m)).bestName ++ ts2 ++ "-epc") ∈
           createdConfigs (run (scriptProg f ts1 ts2 role fuel) w 0).trace ∧
         ((w (7 + m)).bestName ++ ts2 ++ "-ep") ∈
           createdEndpoints (run (scriptProg f ts1 ts2 role fuel) w 0).trace ∧
         deletedModels (run (scriptProg f ts1 ts2 role fuel) w 0).trace = [] ∧
         deletedConfigs (run (scriptProg f ts1 ts2 role fuel) w 0).trace = [] ∧
         deletedEndpoints (run (scriptProg f ts1 ts2 role fuel) w 0).trace = []) := by
  constructor
  · intro f ts1 ts2 role fuel w2 e he
    exact exec_EvOK _ _ w2 0 (scriptProg_EvOK_noDelete f ts1 ts2 role fuel) e he
  · intro f ts1 ts2 role w fuel m hfuel hterm hpre
    rw [run_script f ts1 ts2 role w fuel m hfuel hterm hpre]
    obtain ⟨hd1, hd2, hd3⟩ := fullTrace_deleted_empty f ts1 ts2 role w m
    refine ⟨?_, ?_, ?_, hd1, hd2, hd3⟩
    · rw [fullTrace_created_models]; simp
    · rw [fullTrace_created_configs]; simp
    · rw [fullTrace_created_endpoints]; simp

theorem claim_C8_no_teardown_witness :
    isDeleteEv (Ev.api ApiCall.listBuckets) = false ∧
    deletedModels (run (scriptProg cFrame "t1" "t2" "role" 2) cWorld 0).trace
      = [] := by
  constructor
  · exact claim_C8_no_teardown.1 cFrame "t1" "t2" "role" 2
      (fun n => Except.ok (cWorld n)) (Ev.api ApiCall.listBuckets) (by decide)
  · have h := claim_C8_no_teardown.2 cFrame "t1" "t2" "role" cWorld 2 1
      (by omega)
      (by decide)
      (by intro i hi
          have hz : i = 0 := by omega
          subst hz
          decide)
    exact h.2.2.2.1

/-! Error propagation: a failing remote call stops everything. -/

theorem exec_fail {α : Type} (w : Nat → Response) (j : Nat) (err : String) :
    ∀ (p : Prog α) (n : Nat), n ≤ j →
      j < n + countApi (run p w n).trace →
      exec p (fun i => if i = j then Except.error err else Except.ok (w i)) n =
        ⟨takeCalls (j - n + 1) (run p w n).trace, j + 1, Except.error err⟩ := by
  intro p
  induction p with
  | pure a =>
    intro n hle hlt
    simp [run, countApi] at hlt
    omega
  | call c f ih =>
    intro n hle hlt
    by_cases hn : n = j
    · subst hn
      rw [exec]
      have ht : takeCalls (n - n + 1) (run (.call c f) w n).trace =
          [Ev.api c] := by
        simp [run, RunOut.prepend, Nat.sub_self, takeCalls]
      rw [ht]
      simp
    · have hlt2 : n < j := by omega
      rw [exec]
      simp only [if_neg (by omega : ¬ n = j)]
      have hrec := ih (w n) (n + 1) (by omega)
        (by
          have : countApi (run (.call c f) w n).trace =
              countApi (run (f (w n)) w (n + 1)).trace + 1 := by
            simp [run, RunOut.prepend, countApi]
          omega)
      rw [hrec]
      have harith : j - n + 1 = (j - (n + 1) + 1) + 1 := by omega
      simp only [run_call, prepend_trace, RunOut.prepend, harith]
      rfl
  | emit e p ih =>
    intro n hle hlt
    rw [exec]
    have hrec := ih n hle
      (by
        have : countApi (run (.emit e p) w n).trace =
            countApi (run p w n).trace := by
          simp [run, RunOut.prepend, countApi]
        omega)
    rw [hrec]
    simp only [run_emit, prepend_trace, RunOut.prepend]
    rfl

/-- C7: if any remote call of the script fails, the script performs no
retry and no compensating or cleanup call, and no later step executes: the
failed run's trace is exactly the normal trace truncated at the failing
call (the failing call is its last event), the error is returned
unhandled, and no delete call appears. -/
theorem claim_C7_error_propagation (f : Frame) (ts1 ts2 role : String)
    (fuel : Nat) (w : Nat → Response) (j : Nat) (err : String)
    (hj : j < countApi (run (scriptProg f ts1 ts2 role fuel) w 0).trace) :
    exec (scriptProg f ts1 ts2 role fuel)
        (fun i => if i = j then Except.error err else Except.ok (w i)) 0 =
      ⟨takeCalls (j + 1) (run (scriptProg f ts1 ts2 role fuel) w 0).trace,
       j + 1, Except.error err⟩ ∧
    ∀ e ∈ (exec (scriptProg f ts1 ts2 role fuel)
        (fun i => if i = j then Except.error err else Except.ok (w i)) 0).trace,
      isDeleteEv e = false := by
  constructor
  · have h := exec_fail w j err (scriptProg f ts1 ts2 role fuel) 0
      (by omega) (by omega)
    simpa using h
  · intro e he
    exact exec_EvOK _ _ _ 0 (scriptProg_EvOK_noDelete f ts1 ts2 role fuel) e he

theorem claim_C7_error_propagation_witness :
    0 < countApi (run (scriptProg cFrame "t1" "t2" "role" 2) cWorld 0).trace ∧
    exec (scriptProg cFrame "t1" "t2" "role" 2)
        (fun i => if i = 0 then Except.error "boom" else Except.ok (cWorld i)) 0 =
      ⟨takeCalls 1 (run (scriptProg cFrame "t1" "t2" "role" 2) cWorld 0).trace,
       1, Except.error "boom"⟩ := by
  refine ⟨by decide, ?_⟩
  have h := claim_C7_error_propagation cFrame "t1" "t2" "role" 2 cWorld 0 "boom"
    (by decide)
  exact h.1

/-! The train/test split: size, distinctness, partition. -/

theorem getD_mem_of_lt (l : List Nat) (j : Nat) (h : j < l.length) :
    l.getD j 0 ∈ l := by
  rw [List.getD_eq_getElem l 0 h]
  exact List.getElem_mem h

theorem getD_not_mem_eraseIdx :
    ∀ (l : List Nat) (j : Nat), l.Nodup → j < l.length →
      l.getD j 0 ∉ l.eraseIdx j := by
  intro l
  induction l with
  | nil => intro j _ h; simp at h
  | cons a t ih =>
    intro j hnd hj
    cases j with
    | zero =>
      exact (List.nodup_cons.mp hnd).1
    | succ j2 =>
      have hnd2 := List.nodup_cons.mp hnd
      have hj2 : j2 < t.length := by simpa using hj
      simp only [List.getD_cons_succ, List.eraseIdx]
      intro hmem
      rcases List.mem_cons.mp hmem with h | h
      · exact hnd2.1 (h ▸ getD_mem_of_lt t j2 hj2)
      · exact ih j2 hnd2.2 hj2 h

theorem drawIdx_length :
    ∀ (k : Nat) (pool : List Nat) (st : Nat),
      (drawIdx k pool st).length = min k pool.length := by
  intro k
  induction k with
  | zero => intro pool st; simp [drawIdx]
  | succ k2 ih =>
    intro pool st
    cases pool with
    | nil => simp [drawIdx]
    | cons x p =>
      have hlt : lcg st % (x :: p).length < (x :: p).length :=
        Nat.mod_lt _ (by simp)
      simp only [drawIdx, List.length_cons]
      rw [ih, List.length_eraseIdx]
      rw [if_pos (by simpa using hlt)]
      simp only [List.length_cons]
      omega

theorem drawIdx_subset :
    ∀ (k : Nat) (pool : List Nat) (st : Nat) (x : Nat),
      x ∈ drawIdx k pool st → x ∈ pool := by
  intro k
  induction k with
  | zero => intro pool st x hx; simp [drawIdx] at hx
  | succ k2 ih =>
    intro pool st x hx
    cases pool with
    | nil => simp [drawIdx] at hx
    | cons a p =>
      have hlt : lcg st % (a :: p).length < (a :: p).length :=
        Nat.mod_lt _ (by simp)
      simp only [drawIdx, List.mem_cons] at hx
      rcases hx with hx | hx
      · exact hx ▸ getD_mem_of_lt _ _ hlt
      · exact (List.eraseIdx_sublist (a :: p) (lcg st % (a :: p).length)).subset
          (ih _ _ x hx)

theorem drawIdx_nodup :
    ∀ (k : Nat) (pool : List Nat) (st : Nat), pool.Nodup →
      (drawIdx k pool st).Nodup := by
  intro k
  induction k with
  | zero => intro pool st _; simp [drawIdx]
  | succ k2 ih =>
    intro pool st hnd
    cases pool with
    | nil => simp [drawIdx]
    | cons a p =>
      have hlt : lcg st % (a :: p).length < (a :: p).length :=
        Nat.mod_lt _ (by simp)
      have hnd2 : ((a :: p).eraseIdx (lcg st % (a :: p).length)).Nodup :=
        (List.eraseIdx_sublist (a :: p) (lcg st % (a :: p).length)).nodup hnd
      simp only [drawIdx, List.nodup_cons]
      refine ⟨?_, ih _ _ hnd2⟩
      intro hmem
      exact getD_not_mem_eraseIdx (a :: p) _ hnd hlt
        (drawIdx_subset k2 _ _ _ hmem)

theorem sampleSize_le (n : Nat) : sampleSize n ≤ n := by
  rw [sampleSize]
  omega

theorem trainIdx_length (n : Nat) : (trainIdx n).length = sampleSize n := by
  rw [trainIdx, sampleIdx, drawIdx_length]
  simp [sampleSize_le n]

theorem trainIdx_nodup (n : Nat) : (trainIdx n).Nodup :=
  drawIdx_nodup _ _ _ (List.nodup_range n)

theorem trainIdx_mem_lt (n : Nat) : ∀ i ∈ trainIdx n, i < n := by
  intro i hi
  have h2 := drawIdx_subset _ _ _ _ hi
  simpa using h2

theorem mem_testIdx (n i : Nat) :
    i ∈ testIdx n ↔ i < n ∧ i ∉ trainIdx n := by
  rw [testIdx, List.mem_filter, List.mem_range]
  constructor
  · rintro ⟨h1, h2⟩
    refine ⟨h1, fun hmem => ?_⟩
    have hc : (trainIdx n).contains i = true := List.elem_iff.mpr hmem
    rw [hc] at h2
    simp at h2
  · rintro ⟨h1, h2⟩
    refine ⟨h1, ?_⟩
    cases hcc : (trainIdx n).contains i
    · rfl
    · exact absurd (List.elem_iff.mp hcc) h2

theorem map_getD_range (rows : List (List String)) :
    (List.range rows.length).map (fun i => rows.getD i []) = rows := by
  induction rows with
  | nil => simp
  | cons a t ih =>
    rw [List.length_cons, List.range_succ_eq_map, List.map_cons, List.map_map]
    have h2 : ((fun i => (a :: t).getD i []) ∘ Nat.succ) =
        (fun i => t.getD i []) := by
      funext i
      simp [List.getD_cons_succ]
    rw [h2, ih]
    simp

theorem trainIdx_perm_filter (n : Nat) :
    (trainIdx n).Perm
      ((List.range n).filter (fun i => (trainIdx n).contains i)) := by
  rw [List.perm_ext_iff_of_nodup (trainIdx_nodup n)
    ((List.nodup_range n).filter _)]
  intro a
  simp only [List.mem_filter, List.mem_range]
  constructor
  · intro ha
    exact ⟨trainIdx_mem_lt n a ha, List.elem_iff.mpr ha⟩
  · rintro ⟨-, ha⟩
    exact List.elem_iff.mp ha

theorem split_perm (rows : List (List String)) :
    (trainRows rows ++ testRows rows).Perm rows := by
  have hperm1 : (trainIdx rows.length ++ testIdx rows.length).Perm
      (List.range rows.length) := by
    refine List.Perm.trans
      (List.Perm.append_right _ (trainIdx_perm_filter rows.length)) ?_
    exact List.filter_append_perm
      (fun i => (trainIdx rows.length).contains i) (List.range rows.length)
  have hmap := hperm1.map (fun i => rows.getD i [])
  rw [List.map_append] at hmap
  have htr : trainRows rows =
      (trainIdx rows.length).map (fun i => rows.getD i []) := rfl
  have hte : testRows rows =
      (testIdx rows.length).map (fun i => rows.getD i []) := rfl
  rw [htr, hte]
  have h4 : (List.map (fun i => rows.getD i []) (List.range rows.length)).Perm
      rows := by
    rw [map_getD_range rows]
  exact hmap.trans h4

theorem script_write_events (f : Frame) (ts1 ts2 role : String)
    (fuel : Nat) (w : Nat → Response) :
    Ev.loc (.write "train_data.csv" (trainFileContent f)) ∈
      (run (scriptProg f ts1 ts2 role fuel) w 0).trace ∧
    Ev.loc (.write "test_data.csv" (testFileContent f)) ∈
      (run (scriptProg f ts1 ts2 role fuel) w 0).trace := by
  rw [scriptProg]
  simp only [run_call, run_emit, prepend_trace]
  simp

/-- C2: the data-preparation step splits the loaded rows into two parts
that form a partition by position: the training split samples
`round(0.8 * n)` of the `n` rows, the testing split is exactly the
remaining rows, each row position is in exactly one split, the two splits
together are a permutation of the input rows, and the script writes the
two derived CSV files (training with header, testing without its target
column and without header). -/
theorem claim_C2_split_partition (f : Frame) :
    (trainRows f.rows).length = sampleSize f.rows.length ∧
    (∀ i, i < f.rows.length →
      ((i ∈ trainIdx f.rows.length) ↔ ¬ i ∈ testIdx f.rows.length)) ∧
    (∀ i, i < f.rows.length →
      i ∈ trainIdx f.rows.length ∨ i ∈ testIdx f.rows.length) ∧
    (trainRows f.rows ++ testRows f.rows).Perm f.rows ∧
    (∀ (ts1 ts2 role : String) (fuel : Nat) (w : Nat → Response),
      Ev.loc (.write "train_data.csv" (trainFileContent f)) ∈
        (run (scriptProg f ts1 ts2 role fuel) w 0).trace ∧
      Ev.loc (.write "test_data.csv" (testFileContent f)) ∈
        (run (scriptProg f ts1 ts2 role fuel) w 0).trace) := by
  refine ⟨?_, ?_, ?_, split_perm f.rows, ?_⟩
  · have h2 : trainRows f.rows =
        (trainIdx f.rows.length).map (fun i => f.rows.getD i []) := rfl
    rw [h2, List.length_map, trainIdx_length]
  · intro i hi
    rw [mem_testIdx]
    constructor
    · intro h hc
      exact hc.2 h
    · intro hnot
      by_contra h2
      exact hnot ⟨hi, h2⟩
  · intro i hi
    by_cases h : i ∈ trainIdx f.rows.length
    · exact Or.inl h
    · exact Or.inr ((mem_testIdx f.rows.length i).mpr ⟨hi, h⟩)
  · intro ts1 ts2 role fuel w
    exact script_write_events f ts1 ts2 role fuel w

theorem claim_C2_split_partition_witness :
    (trainRows cFrame.rows).length = sampleSize cFrame.rows.length ∧
    (0 ∈ trainIdx cFrame.rows.length ∨ 0 ∈ testIdx cFrame.rows.length) := by
  refine ⟨(claim_C2_split_partition cFrame).1, ?_⟩
  exact (claim_C2_split_partition cFrame).2.2.1 0 (by decide)

/-- C10: the train/test split is deterministic.  `sample` is called with
the fixed seed `random_state=200`, so the result does not depend on the
ambient global generator state: two runs of the data-preparation step on
the same rows produce identical training and testing splits, equal to the
pure-function split used by the rest of the embedding. -/
theorem claim_C10_deterministic_split (rows : List (List String))
    (ambient1 ambient2 : Nat) :
    prepareSplit rows ambient1 = prepareSplit rows ambient2 ∧
    prepareSplit rows ambient1 = (trainRows rows, testRows rows) := ⟨rfl, rfl⟩

/-! `split_s3_path`: bucket/key decomposition of S3 URIs. -/

theorem splitCh_ne_nil (sep : Char) : ∀ s, splitCh sep s ≠ [] := by
  intro s
  cases s with
  | nil => simp [splitCh]
  | cons c rest =>
    rw [splitCh]
    by_cases h : (c == sep) = true
    · simp [h]
    · simp only [h, if_false]
      cases h2 : splitCh sep rest <;> simp

theorem splitCh_slash_append (b k : List Char) (hb : '/' ∉ b) :
    splitCh '/' (b ++ '/' :: k) = b :: splitCh '/' k := by
  induction b with
  | nil =>
    simp only [List.nil_append]
    rw [splitCh]
    simp
  | cons c b2 ih =>
    have hc : c ≠ '/' := by
      intro hcc
      exact hb (by rw [hcc]; exact List.mem_cons_self _ _)
    have hb2 : '/' ∉ b2 := fun h => hb (List.mem_cons_of_mem _ h)
    have hbeq : (c == '/') = false := by simpa using hc
    rw [List.cons_append, splitCh, hbeq]
    simp only [Bool.false_eq_true, if_false]
    rw [ih hb2]

theorem joinSlash_splitCh : ∀ k : List Char, joinSlash (splitCh '/' k) = k := by
  intro k
  induction k with
  | nil => rfl
  | cons c rest ih =>
    rw [splitCh]
    by_cases h : c = '/'
    · subst h
      simp only [beq_self_eq_true, if_true]
      obtain ⟨p, ps, hps⟩ : ∃ p ps, splitCh '/' rest = p :: ps := by
        cases h2 : splitCh '/' rest with
        | nil => exact absurd h2 (splitCh_ne_nil '/' rest)
        | cons p ps => exact ⟨p, ps, rfl⟩
      rw [hps]
      rw [joinSlash]
      rw [hps] at ih
      rw [ih]
      simp
    · have hbeq : (c == '/') = false := by simpa using h
      rw [hbeq]
      simp only [Bool.false_eq_true, if_false]
      cases h2 : splitCh '/' rest with
      | nil => exact absurd h2 (splitCh_ne_nil '/' rest)
      | cons p ps =>
        rw [h2] at ih
        cases ps with
        | nil =>
          rw [joinSlash] at ih ⊢
          rw [ih]
        | cons q ps2 =>
          rw [joinSlash] at ih ⊢
          rw [List.cons_append, ih]

theorem stripS3_of_no_sub : ∀ s, hasSub s3Scheme s = false → stripS3 s = s := by
  intro s
  induction s using stripS3.induct with
  | case1 rest ih =>
    intro h
    exfalso
    simp [hasSub, isPre, s3Scheme] at h
  | case2 => intro _; rfl
  | case3 c rest hne ih =>
    intro h
    rw [hasSub] at h
    have h2 : hasSub s3Scheme rest = false := by
      cases h3 : hasSub s3Scheme rest
      · rfl
      · rw [h3] at h; simp at h
    rw [stripS3.eq_3 c rest hne, ih h2]

/-- C9, counterexample to the claim as stated.  Python's
`replace("s3://", "")` deletes every occurrence of `"s3://"`, not just the
leading scheme.  With `b = "xs3:"` (non-empty, no `'/'`, not containing
`"s3://"`) and `k = "/y"` (not containing `"s3://"`), the URI
`"s3://" ++ b ++ "/" ++ k = "s3://xs3://y"` contains a second occurrence
of `"s3://"` spanning the bucket/key boundary, so `split_s3_path` returns
`("xy", "")` instead of `(b, k)`. -/
theorem claim_C9_counterexample :
    ("xs3:".toList ≠ [] ∧ '/' ∉ "xs3:".toList ∧
     hasSub s3Scheme "xs3:".toList = false ∧
     hasSub s3Scheme "/y".toList = false) ∧
    split_s3_path (s3Scheme ++ "xs3:".toList ++ '/' :: "/y".toList) =
      ("xy".toList, [] ) ∧
    split_s3_path (s3Scheme ++ "xs3:".toList ++ '/' :: "/y".toList) ≠
      ("xs3:".toList, "/y".toList) := by
  refine ⟨⟨by decide, by decide, by decide, by decide⟩, by decide, by decide⟩

/-- C9 (amended): for every S3 URI `"s3://" ++ b ++ "/" ++ k` in which `b`
is a non-empty bucket name containing no `'/'` and the remainder
`b ++ "/" ++ k` contains no occurrence of `"s3://"` (in particular
neither `b` nor `k` does), `split_s3_path` returns the pair `(b, k)`, and
re-concatenating `"s3://" ++ bucket ++ "/" ++ key` from its result
reconstructs the original input. -/
theorem claim_C9_split_s3_path (b k : List Char) (hb : b ≠ [])
    (hslash : '/' ∉ b)
    (hsub : hasSub s3Scheme (b ++ '/' :: k) = false) :
    split_s3_path (s3Scheme ++ b ++ '/' :: k) = (b, k) ∧
    s3Scheme ++ (split_s3_path (s3Scheme ++ b ++ '/' :: k)).1 ++
      '/' :: (split_s3_path (s3Scheme ++ b ++ '/' :: k)).2 =
      s3Scheme ++ b ++ '/' :: k := by
  have hassoc : s3Scheme ++ b ++ '/' :: k = s3Scheme ++ (b ++ '/' :: k) :=
    List.append_assoc _ _ _
  have hstrip : stripS3 (s3Scheme ++ (b ++ '/' :: k)) = b ++ '/' :: k := by
    have h1 : stripS3 (s3Scheme ++ (b ++ '/' :: k)) =
        stripS3 (b ++ '/' :: k) := rfl
    rw [h1, stripS3_of_no_sub _ hsub]
  have hmain : split_s3_path (s3Scheme ++ b ++ '/' :: k) = (b, k) := by
    rw [split_s3_path, hassoc, hstrip, splitCh_slash_append b k hslash]
    simp only [List.headD, List.tail_cons]
    rw [joinSlash_splitCh]
  refine ⟨hmain, ?_⟩
  rw [hmain]

theorem claim_C9_split_s3_path_witness :
    ("mybucket".toList ≠ [] ∧ '/' ∉ "mybucket".toList ∧
      hasSub s3Scheme ("mybucket".toList ++ '/' :: "a/b.csv".toList) = false) ∧
    split_s3_path (s3Scheme ++ "mybucket".toList ++ '/' :: "a/b.csv".toList) =
      ("mybucket".toList, "a/b.csv".toList) := by
  refine ⟨⟨by decide, by decide, by decide⟩, ?_⟩
  exact (claim_C9_split_s3_path "mybucket".toList "a/b.csv".toList
    (by decide) (by decide) (by decide)).1

end ChurnLab
